import Mathlib

/-!
Shallow embedding of the apk.rs application (src/main.rs).

The program fetches a product catalog, filters and classifies products into
five groups, sorts each group by a derived "apk" value score, renders a page
from the grouped data, and serves the latest successfully rendered page from
a shared cache that a background loop refreshes (7200 s after a success,
5 s after a failure).

Modelling conventions:
- Rust `f64` fields are modelled as exact rationals (`Rat`); the result of the
  score division is modelled by `FVal`, rationals extended with `posInf`,
  `negInf` and `nan` following IEEE-754 division semantics (x / 0 = ±∞ for
  x ≠ 0, 0 / 0 = NaN), with the IEEE comparison semantics (NaN compares
  false under `<` against everything).
- A Rust panic (the `unwrap` of a missing `assortment`) is modelled by
  `Option`: `none` is a panic, `some` a normal result.
- Fallible operations (`Result` in Rust) are modelled by `Except Unit`.
- The external rendering engine (`tera.render`) and the catalog fetch are
  parameters of the `render` model, as they are external collaborators.
-/

namespace Apk

/-- The product record from the catalog (fields used by src/main.rs; the
numeric `f64` fields are modelled as exact rationals). `category`,
`sub_category` and `assortment` are `Option` in the source (the code calls
`as_ref().unwrap()` / `as_ref().unwrap_or(...)` on them). -/
structure Product where
  category : Option String
  sub_category : Option String
  assortment : Option String
  alcohol_percentage : Rat
  volume : Rat
  price : Rat
  recycle_fee : Rat
  is_completely_out_of_stock : Bool
deriving DecidableEq

/-- The five groups the page displays. -/
inductive Group where
  | wine
  | beer
  | cider
  | liquor
  | other
deriving DecidableEq

/-- The five vectors `wines`, `beers`, `ciders`, `liquors`, `others` built by
`render` in src/main.rs. -/
structure Groups where
  wines : List Product
  beers : List Product
  ciders : List Product
  liquors : List Product
  others : List Product
deriving DecidableEq

/-- Projection of a `Groups` record at a `Group` tag. -/
def Groups.list (g : Groups) : Group → List Product
  | .wine => g.wines
  | .beer => g.beers
  | .cider => g.ciders
  | .liquor => g.liquors
  | .other => g.others

/-- Append a product at the end of one of the five vectors (a Rust
`Vec::push`). -/
def Groups.push (g : Groups) : Group → Product → Groups
  | .wine, d => { g with wines := g.wines ++ [d] }
  | .beer, d => { g with beers := g.beers ++ [d] }
  | .cider, d => { g with ciders := g.ciders ++ [d] }
  | .liquor, d => { g with liquors := g.liquors ++ [d] }
  | .other, d => { g with others := g.others ++ [d] }

/-- The empty five groups. -/
def Groups.empty : Groups := ⟨[], [], [], [], []⟩

/-- The eligibility filter closure of `render` in src/main.rs:
`drink.alcohol_percentage > 0.0 && !drink.assortment.as_ref().unwrap().eq("BS")
&& !drink.assortment.as_ref().unwrap().eq("TSLS")
&& !drink.is_completely_out_of_stock`.
`&&` short-circuits, so the `unwrap` (which panics on `none`, modelled by the
`Option.none` result) is only reached when `alcohol_percentage > 0`. -/
def eligible (drink : Product) : Option Bool :=
  if 0 < drink.alcohol_percentage then
    match drink.assortment with
    | some a => some (!(a == "BS") && !(a == "TSLS") && !drink.is_completely_out_of_stock)
    | none => none
  else
    some false

/-- The classification `match` of `render` in src/main.rs, written as the
equivalent chain of string comparisons in the source's arm order. Missing
`category` / `sub_category` default to `"Other"` (`unwrap_or`). -/
def classify (drink : Product) : Group :=
  let c := drink.category.getD "Other"
  if c = "Röda viner" ∨ c = "Vita viner" ∨ c = "Mousserande viner" ∨
      c = "Roséviner" ∨ c = "Aperitif & dessert" then
    .wine
  else if c = "Öl" then
    .beer
  else if c = "Cider och blanddrycker" then
    if drink.sub_category.getD "Other" = "Cider" then .cider else .other
  else if c = "Sprit" then
    .liquor
  else
    .other

/-- The filter + for_each pipeline of `render`: process products in order,
drop ineligible ones, push each eligible one at the end of its group's
vector. A panic in the filter (missing `assortment` with positive alcohol)
aborts the whole render, modelled by `none`. -/
def categorizeAux (g : Groups) : List Product → Option Groups
  | [] => some g
  | d :: ds =>
    match eligible d with
    | none => none
    | some false => categorizeAux g ds
    | some true => categorizeAux (g.push (classify d) d) ds

/-- Categorize a fetched product list starting from the five empty vectors. -/
def categorize (products : List Product) : Option Groups :=
  categorizeAux Groups.empty products

/-- An `f64` value produced by the score division: an exact rational, or one
of the IEEE-754 non-finite values. -/
inductive FVal where
  | fin (q : Rat)
  | posInf
  | negInf
  | nan
deriving DecidableEq

/-- IEEE-754 `<` on modelled `f64` values: `nan` is unordered against
everything, `negInf < fin q < posInf`. -/
def flt : FVal → FVal → Bool
  | .fin a, .fin b => a < b
  | .fin _, .posInf => true
  | .negInf, .fin _ => true
  | .negInf, .posInf => true
  | _, _ => false

/-- The value score, `fn apk` in src/main.rs:
`drink.alcohol_percentage * drink.volume / (drink.price + drink.recycle_fee)`,
with IEEE-754 division semantics at a zero denominator. -/
def apk (drink : Product) : FVal :=
  if drink.price + drink.recycle_fee = 0 then
    if 0 < drink.alcohol_percentage * drink.volume then .posInf
    else if drink.alcohol_percentage * drink.volume < 0 then .negInf
    else .nan
  else
    .fin (drink.alcohol_percentage * drink.volume / (drink.price + drink.recycle_fee))

/-- `fn apk_comparator` in src/main.rs: `Greater` if `apk d1 < apk d2`,
`Less` if `apk d1 > apk d2`, otherwise `Equal` (in Rust, `a > b` on `f64` is
`b < a`). -/
def apk_comparator (d1 d2 : Product) : Ordering :=
  if flt (apk d1) (apk d2) then .gt
  else if flt (apk d2) (apk d1) then .lt
  else .eq

/-- Insert an element into a list ordered by a three-way comparator: walk past
the elements the comparator places before it. -/
def insertBy (c : α → α → Ordering) (a : α) : List α → List α
  | [] => [a]
  | b :: bs => if c a b = .gt then b :: insertBy c a bs else a :: b :: bs

/-- Comparison sort by a three-way comparator, modelling Rust's
`slice::sort_by` (a stable comparison sort; for a comparator that is a total
preorder the result is the same sorted permutation). -/
def sort_by (c : α → α → Ordering) : List α → List α
  | [] => []
  | a :: as => insertBy c a (sort_by c as)

/-- The five `sort_by(apk_comparator)` calls of `render`. -/
def sortGroups (g : Groups) : Groups :=
  { wines := sort_by apk_comparator g.wines
    beers := sort_by apk_comparator g.beers
    ciders := sort_by apk_comparator g.ciders
    liquors := sort_by apk_comparator g.liquors
    others := sort_by apk_comparator g.others }

/-- Categorize then sort: the grouping part of `render` producing the five
ranked sequences (`none` on a panic). -/
def renderGroups (products : List Product) : Option Groups :=
  (categorize products).map sortGroups

/-- The `json!` mapping built by `render`, in the source's construction
order: `{"Öl": beers, "Vin": wines, "Cider": ciders, "Sprit": liquors,
"Annat": others}` — display names for Beer, Wine, Cider, Liquor, Other. -/
def drinksJson (g : Groups) : List (String × List Product) :=
  [("Öl", g.beers), ("Vin", g.wines), ("Cider", g.ciders),
   ("Sprit", g.liquors), ("Annat", g.others)]

/-- The template context handed to the rendering engine: the `drinks`
mapping. -/
structure TeraContext where
  drinks : List (String × List Product)
deriving DecidableEq

/-- `pub fn apk_filter` in src/main.rs: the per-product value-score accessor
registered with the rendering engine; deserialization aside, it computes
`apk` of the product. -/
def apk_filter (drink : Product) : FVal := apk drink

/-- Decimal digits of a natural number (most significant first). -/
def natDigitsString (n : Nat) : String :=
  String.mk ((Nat.toDigits 10 n))

/-- `pub fn format_float` in src/main.rs: `format!("{:.*}", precision,
number)` — render a number with a fixed count of decimal places (modelled on
the exact rational value, rounding to nearest). -/
def format_float (value : Rat) (precision : Nat) : String :=
  let scaled : Int := round (value * (10 : Rat) ^ precision)
  let sign := if scaled < 0 then "-" else ""
  let m := scaled.natAbs
  if precision = 0 then
    sign ++ natDigitsString m
  else
    sign ++ natDigitsString (m / 10 ^ precision) ++ "." ++
      String.mk (List.replicate (precision - (Nat.toDigits 10 (m % 10 ^ precision)).length) '0') ++
      natDigitsString (m % 10 ^ precision)

/-- The body of `async fn render`, with the two external collaborators as
parameters: `fetched` is the outcome of `systemet.get_all_products()`, and
`teraRender` is `tera.render(TEMPLATE, ·)`. `none` models a panic; otherwise
fetch errors and render errors propagate as `Except.error`. -/
def render (teraRender : TeraContext → Except Unit String)
    (fetched : Except Unit (List Product)) : Option (Except Unit String) :=
  match fetched with
  | .error e => some (.error e)
  | .ok products =>
    match categorize products with
    | none => none
    | some g =>
      some (match teraRender ⟨drinksJson (sortGroups g)⟩ with
        | .ok body => .ok body
        | .error err => .error err)

/-- `const UPDATE_INTERVAL: u64 = 7200` (seconds). -/
def UPDATE_INTERVAL : Nat := 7200

/-- `const RETRY_INTERVAL: u64 = 5` (seconds). -/
def RETRY_INTERVAL : Nat := 5

/-- The page published by the scheduler loop after `n` refresh cycles, given
the outcome of each cycle's `render` call. Cycle `0` has not run yet: the
cache holds the initial placeholder `""`. On `Ok(body)` the loop writes
`body` into the shared page; on `Err` it leaves the page untouched. -/
def scheduler_page (outcomes : Nat → Except Unit String) : Nat → String
  | 0 => ""
  | n + 1 =>
    match outcomes n with
    | .ok body => body
    | .error _ => scheduler_page outcomes n

/-- The delay the scheduler sleeps after cycle `n`: `UPDATE_INTERVAL` on
success, `RETRY_INTERVAL` on failure. -/
def scheduler_delay (outcomes : Nat → Except Unit String) (n : Nat) : Nat :=
  match outcomes n with
  | .ok _ => UPDATE_INTERVAL
  | .error _ => RETRY_INTERVAL

/-- The GET route of src/main.rs: read the shared page and return its current
contents (`(*page).read().unwrap().to_string()`). -/
def cache_read (page : String) : String := page

/-- Concrete outcome sequence used for witnesses: cycle 0 succeeds with body
"A", every later cycle fails. -/
def outcomesA : Nat → Except Unit String :=
  fun k => if k = 0 then .ok "A" else .error ()

/-- Sample product with the spec's round-trip numbers: alcohol 12.5,
volume 750, price 89, recycle fee 1. -/
def sample_product : Product :=
  { category := some "Röda viner"
    sub_category := none
    assortment := some "FS"
    alcohol_percentage := (25 : Rat) / 2
    volume := 750
    price := 89
    recycle_fee := 1
    is_completely_out_of_stock := false }

/-- Product whose score is NaN: 0 × 0 / (0 + 0). -/
def nan_product : Product :=
  { category := none
    sub_category := none
    assortment := some "FS"
    alcohol_percentage := 0
    volume := 0
    price := 0
    recycle_fee := 0
    is_completely_out_of_stock := false }

lemma scheduler_page_all_failed (outcomes : Nat → Except Unit String) :
    ∀ n, (∀ k, k < n → ∃ e, outcomes k = .error e) → scheduler_page outcomes n = "" := by
  intro n
  induction n with
  | zero => intro _; rfl
  | succ m ih =>
    intro h
    obtain ⟨e, he⟩ := h m (Nat.lt_succ_self m)
    simp only [scheduler_page, he]
    exact ih fun k hk => h k (Nat.lt_succ_of_lt hk)

lemma flt_nan_left (b : FVal) : flt .nan b = false := by
  cases b <;> rfl

lemma flt_nan_right (a : FVal) : flt a .nan = false := by
  cases a <;> rfl

lemma flt_asymm {a b : FVal} (h : flt a b = true) : flt b a = false := by
  cases a <;> cases b <;> simp_all [flt]
  exact h.le

lemma flt_irrefl (a : FVal) : flt a a = false := by
  cases a <;> simp [flt]

lemma apk_comparator_gt {d1 d2 : Product} :
    apk_comparator d1 d2 = .gt ↔ flt (apk d1) (apk d2) = true := by
  unfold apk_comparator
  split
  · simp_all
  · split <;> simp_all

lemma apk_comparator_lt {d1 d2 : Product} :
    apk_comparator d1 d2 = .lt ↔ flt (apk d2) (apk d1) = true := by
  unfold apk_comparator
  split
  · rename_i h
    simp [flt_asymm h]
  · split <;> simp_all

lemma apk_comparator_eq {d1 d2 : Product} :
    apk_comparator d1 d2 = .eq ↔
      (flt (apk d1) (apk d2) = false ∧ flt (apk d2) (apk d1) = false) := by
  unfold apk_comparator
  split
  · simp_all
  · split <;> simp_all

/-- C1: if refresh cycle `n` fails, the published snapshot is unchanged:
every read after the failed attempt returns exactly the snapshot current
before the attempt; if every cycle so far failed, that snapshot is the
placeholder `""`. -/
theorem c1_failed_refresh_preserves_snapshot
    (outcomes : Nat → Except Unit String) (n : Nat) (e : Unit)
    (hfail : outcomes n = .error e) :
    cache_read (scheduler_page outcomes (n + 1)) = cache_read (scheduler_page outcomes n) ∧
    ((∀ k, k ≤ n → ∃ e0, outcomes k = .error e0) → scheduler_page outcomes (n + 1) = "") := by
  constructor
  · simp [cache_read, scheduler_page, hfail]
  · intro h
    exact scheduler_page_all_failed outcomes (n + 1) fun k hk => h k (Nat.lt_succ_iff.mp hk)

theorem c1_witness :
    outcomesA 1 = .error () ∧
    (cache_read (scheduler_page outcomesA 2) = cache_read (scheduler_page outcomesA 1) ∧
      ((∀ k, k ≤ 1 → ∃ e0, outcomesA k = .error e0) → scheduler_page outcomesA 2 = "")) :=
  ⟨rfl, c1_failed_refresh_preserves_snapshot outcomesA 1 () rfl⟩

/-- C2: after cycle `n` succeeds with `body`, every read at any later cycle
count `m`, as long as all cycles strictly between `n` and `m` failed, returns
exactly `body`. -/
theorem c2_success_publishes_until_next_success
    (outcomes : Nat → Except Unit String) (n m : Nat) (body : String)
    (hok : outcomes n = .ok body) (hm : n < m)
    (hfail : ∀ k, n < k → k < m → ∃ e, outcomes k = .error e) :
    cache_read (scheduler_page outcomes m) = body := by
  induction m with
  | zero => omega
  | succ p ih =>
    rcases Nat.lt_succ_iff_lt_or_eq.mp hm with hlt | heq
    · obtain ⟨e, he⟩ := hfail p hlt (Nat.lt_succ_self p)
      simp only [cache_read, scheduler_page, he]
      exact ih hlt fun k h1 h2 => hfail k h1 (Nat.lt_succ_of_lt h2)
    · subst heq
      simp [cache_read, scheduler_page, hok]

theorem c2_witness :
    outcomesA 0 = .ok "A" ∧ cache_read (scheduler_page outcomesA 2) = "A" :=
  ⟨rfl, c2_success_publishes_until_next_success outcomesA 0 2 "A" rfl (by omega)
    (fun k h1 h2 => by
      have hk : k = 1 := by omega
      subst hk
      exact ⟨(), rfl⟩)⟩

/-- C3: the wait after cycle `n` is the long interval (7200 s) iff the cycle
succeeded and the short interval (5 s) iff it failed; the delay depends only
on that cycle's outcome (no backoff growth), and the loop is total (defined
at every cycle index, no terminal state). -/
theorem c3_delay_chosen_by_outcome (outcomes : Nat → Except Unit String) (n : Nat) :
    (scheduler_delay outcomes n = UPDATE_INTERVAL ↔ ∃ body, outcomes n = .ok body) ∧
    (scheduler_delay outcomes n = RETRY_INTERVAL ↔ ∃ e, outcomes n = .error e) ∧
    UPDATE_INTERVAL = 7200 ∧ RETRY_INTERVAL = 5 ∧
    (∀ outcomes2, outcomes2 n = outcomes n →
      scheduler_delay outcomes2 n = scheduler_delay outcomes n) := by
  refine ⟨?_, ?_, rfl, rfl, ?_⟩
  · cases h : outcomes n <;> simp [scheduler_delay, h, UPDATE_INTERVAL, RETRY_INTERVAL]
  · cases h : outcomes n <;> simp [scheduler_delay, h, UPDATE_INTERVAL, RETRY_INTERVAL]
  · intro outcomes2 h2
    unfold scheduler_delay
    rw [h2]

theorem c3_witness :
    (scheduler_delay outcomesA 0 = UPDATE_INTERVAL ↔ ∃ body, outcomesA 0 = .ok body) ∧
    (scheduler_delay outcomesA 0 = RETRY_INTERVAL ↔ ∃ e, outcomesA 0 = .error e) ∧
    UPDATE_INTERVAL = 7200 ∧ RETRY_INTERVAL = 5 ∧
    (∀ outcomes2, outcomes2 0 = outcomesA 0 →
      scheduler_delay outcomes2 0 = scheduler_delay outcomesA 0) :=
  c3_delay_chosen_by_outcome outcomesA 0

/-- C7: the value score is alcohol × volume / (price + recycle fee); at
alcohol 12.5, volume 750, price 89, fee 1 it is 9375/90 = 625/6, within
1/1000 of 104.1667. -/
theorem c7_score_formula :
    (∀ p : Product, p.price + p.recycle_fee ≠ 0 →
      apk p = .fin (p.alcohol_percentage * p.volume / (p.price + p.recycle_fee))) ∧
    apk sample_product = .fin (625 / 6) ∧
    |(625 : Rat) / 6 - 1041667 / 10000| < 1 / 1000 := by
  refine ⟨fun p h => by simp [apk, h], ?_, ?_⟩
  · have h : sample_product.price + sample_product.recycle_fee ≠ 0 := by
      norm_num [sample_product]
    simp only [apk, if_neg h]
    norm_num [sample_product]
  · rw [abs_sub_lt_iff]
    constructor <;> norm_num

theorem c7_witness :
    sample_product.price + sample_product.recycle_fee ≠ 0 ∧
    apk sample_product =
      .fin (sample_product.alcohol_percentage * sample_product.volume /
        (sample_product.price + sample_product.recycle_fee)) :=
  ⟨by norm_num [sample_product], c7_score_formula.1 sample_product (by norm_num [sample_product])⟩

/-- C10: the comparator is total and returns `Greater` exactly when
`apk d1 < apk d2`, `Less` exactly when `apk d1 > apk d2`, `Equal` otherwise;
a NaN-scored product compares `Equal` against every product, and a zero
price + recycle fee yields an infinite or NaN score. -/
theorem c10_comparator_total (d1 d2 : Product) :
    (apk_comparator d1 d2 = .gt ↔ flt (apk d1) (apk d2) = true) ∧
    (apk_comparator d1 d2 = .lt ↔ flt (apk d2) (apk d1) = true) ∧
    (apk_comparator d1 d2 = .eq ↔
      (flt (apk d1) (apk d2) = false ∧ flt (apk d2) (apk d1) = false)) ∧
    (apk d1 = .nan → apk_comparator d1 d2 = .eq ∧ apk_comparator d2 d1 = .eq) ∧
    (d1.price + d1.recycle_fee = 0 →
      apk d1 = .posInf ∨ apk d1 = .negInf ∨ apk d1 = .nan) := by
  refine ⟨apk_comparator_gt, apk_comparator_lt, apk_comparator_eq, ?_, ?_⟩
  · intro hnan
    constructor
    · exact apk_comparator_eq.mpr ⟨by rw [hnan]; exact flt_nan_left _,
        by rw [hnan]; exact flt_nan_right _⟩
    · exact apk_comparator_eq.mpr ⟨by rw [hnan]; exact flt_nan_right _,
        by rw [hnan]; exact flt_nan_left _⟩
  · intro h
    unfold apk
    rw [if_pos h]
    split
    · exact Or.inl rfl
    · split
      · exact Or.inr (Or.inl rfl)
      · exact Or.inr (Or.inr rfl)

theorem c10_witness :
    apk nan_product = .nan ∧
    apk_comparator nan_product sample_product = .eq ∧
    apk_comparator sample_product nan_product = .eq :=
  ⟨by norm_num [apk, nan_product],
    ((c10_comparator_total nan_product sample_product).2.2.2.1
      (by norm_num [apk, nan_product])).1,
    ((c10_comparator_total nan_product sample_product).2.2.2.1
      (by norm_num [apk, nan_product])).2⟩

/-- Eligible product used for witnesses: a beer with score 50. -/
def wp_beer : Product :=
  { category := some "Öl"
    sub_category := none
    assortment := some "FS"
    alcohol_percentage := 5
    volume := 100
    price := 10
    recycle_fee := 0
    is_completely_out_of_stock := false }

/-- Out-of-stock product used for witnesses. -/
def wp_oos : Product :=
  { category := some "Öl"
    sub_category := none
    assortment := some "FS"
    alcohol_percentage := 5
    volume := 1
    price := 1
    recycle_fee := 0
    is_completely_out_of_stock := true }

/-- Product with a missing `assortment` but positive alcohol: the filter
closure unwraps `None` and panics. -/
def no_assortment_product : Product :=
  { category := none
    sub_category := none
    assortment := none
    alcohol_percentage := 1
    volume := 1
    price := 1
    recycle_fee := 0
    is_completely_out_of_stock := false }

lemma Groups.empty_list (grp : Group) : Groups.empty.list grp = [] := by
  cases grp <;> rfl

lemma Groups.list_push (g : Groups) (c c' : Group) (d : Product) :
    (g.push c d).list c' = if c' = c then g.list c' ++ [d] else g.list c' := by
  cases c <;> cases c' <;> simp [Groups.push, Groups.list]

lemma categorizeAux_mem :
    ∀ (ds : List Product) (g G : Groups), categorizeAux g ds = some G →
      ∀ (grp : Group) (p : Product),
        p ∈ G.list grp ↔
          p ∈ g.list grp ∨ (p ∈ ds ∧ eligible p = some true ∧ classify p = grp) := by
  intro ds
  induction ds with
  | nil =>
    intro g G h grp p
    simp only [categorizeAux, Option.some.injEq] at h
    subst h
    simp
  | cons d ds ih =>
    intro g G h grp p
    simp only [categorizeAux] at h
    cases he : eligible d with
    | none => rw [he] at h; exact absurd h (by simp)
    | some b =>
      rw [he] at h
      cases b with
      | false =>
        rw [ih g G h grp p]
        constructor
        · rintro (hg | ⟨hds, helig, hcl⟩)
          · exact Or.inl hg
          · exact Or.inr ⟨List.mem_cons_of_mem d hds, helig, hcl⟩
        · rintro (hg | ⟨hds, helig, hcl⟩)
          · exact Or.inl hg
          · rcases List.mem_cons.mp hds with rfl | hds'
            · rw [he] at helig; exact absurd helig (by simp)
            · exact Or.inr ⟨hds', helig, hcl⟩
      | true =>
        rw [ih _ G h grp p, Groups.list_push]
        by_cases hgrp : grp = classify d
        · rw [if_pos hgrp]
          simp only [List.mem_append, List.mem_cons, List.not_mem_nil, or_false]
          constructor
          · rintro ((hg | rfl) | ⟨hds, helig, hcl⟩)
            · exact Or.inl hg
            · exact Or.inr ⟨Or.inl rfl, he, hgrp.symm⟩
            · exact Or.inr ⟨Or.inr hds, helig, hcl⟩
          · rintro (hg | ⟨rfl | hds, helig, hcl⟩)
            · exact Or.inl (Or.inl hg)
            · exact Or.inl (Or.inr rfl)
            · exact Or.inr ⟨hds, helig, hcl⟩
        · rw [if_neg hgrp]
          constructor
          · rintro (hg | ⟨hds, helig, hcl⟩)
            · exact Or.inl hg
            · exact Or.inr ⟨List.mem_cons_of_mem d hds, helig, hcl⟩
          · rintro (hg | ⟨hds, helig, hcl⟩)
            · exact Or.inl hg
            · rcases List.mem_cons.mp hds with rfl | hds'
              · exact absurd hcl.symm hgrp
              · exact Or.inr ⟨hds', helig, hcl⟩

lemma categorize_mem (products : List Product) (G : Groups)
    (h : categorize products = some G) (grp : Group) (p : Product) :
    p ∈ G.list grp ↔ p ∈ products ∧ eligible p = some true ∧ classify p = grp := by
  rw [categorizeAux_mem products Groups.empty G h grp p, Groups.empty_list]
  simp

lemma insertBy_perm (c : α → α → Ordering) (a : α) (l : List α) :
    (insertBy c a l).Perm (a :: l) := by
  induction l with
  | nil => exact List.Perm.refl _
  | cons b bs ih =>
    simp only [insertBy]
    split
    · exact (ih.cons b).trans (List.Perm.swap a b bs)
    · exact List.Perm.refl _

lemma sort_by_perm (c : α → α → Ordering) (l : List α) :
    (sort_by c l).Perm l := by
  induction l with
  | nil => exact List.Perm.refl _
  | cons a as ih => exact (insertBy_perm c a _).trans (ih.cons a)

lemma sortGroups_list (g : Groups) (grp : Group) :
    (sortGroups g).list grp = sort_by apk_comparator (g.list grp) := by
  cases grp <;> rfl

lemma renderGroups_mem (products : List Product) (G : Groups)
    (h : renderGroups products = some G) (grp : Group) (p : Product) :
    p ∈ G.list grp ↔ p ∈ products ∧ eligible p = some true ∧ classify p = grp := by
  unfold renderGroups at h
  cases hc : categorize products with
  | none => rw [hc] at h; exact absurd h (by simp)
  | some g0 =>
    rw [hc, Option.map_some'] at h
    obtain rfl : sortGroups g0 = G := by injection h
    rw [sortGroups_list, (sort_by_perm apk_comparator (g0.list grp)).mem_iff,
      categorize_mem products g0 hc grp p]

lemma eligible_ne_true_of_excluded (p : Product)
    (hex : p.alcohol_percentage = 0 ∨ p.is_completely_out_of_stock = true ∨
      p.assortment = some "BS" ∨ p.assortment = some "TSLS") :
    eligible p ≠ some true := by
  unfold eligible
  rcases hex with h | h | h | h
  · rw [h]; simp
  · split
    · cases p.assortment <;> simp [h]
    · simp
  · split
    · rw [h]; simp
    · simp
  · split
    · rw [h]; simp
    · simp

/-- C4: a product with zero alcohol percentage, or completely out of stock,
or whose assortment is one of the excluded codes "BS" / "TSLS", is in none of
the five groups of the rendered page, regardless of its category or
sub-category. -/
theorem c4_excluded_never_grouped
    (products : List Product) (G : Groups) (p : Product)
    (hG : renderGroups products = some G)
    (_hp : p ∈ products)
    (hex : p.alcohol_percentage = 0 ∨ p.is_completely_out_of_stock = true ∨
      p.assortment = some "BS" ∨ p.assortment = some "TSLS") :
    ∀ grp : Group, p ∉ G.list grp := by
  intro grp hmem
  rw [renderGroups_mem products G hG grp p] at hmem
  exact eligible_ne_true_of_excluded p hex hmem.2.1

lemma renderGroups_wp_oos : renderGroups [wp_oos] = some Groups.empty := by
  norm_num [renderGroups, categorize, categorizeAux, eligible, wp_oos,
    sortGroups, sort_by, Groups.empty]

theorem c4_witness :
    renderGroups [wp_oos] = some Groups.empty ∧
    wp_oos ∈ [wp_oos] ∧
    wp_oos.is_completely_out_of_stock = true ∧
    ∀ grp : Group, wp_oos ∉ Groups.empty.list grp :=
  ⟨renderGroups_wp_oos, by simp, rfl,
    c4_excluded_never_grouped [wp_oos] Groups.empty wp_oos renderGroups_wp_oos
      (by simp) (Or.inr (Or.inl rfl))⟩

/-- The single-beer grouping used by witnesses. -/
def single_beer : Groups := ⟨[], [wp_beer], [], [], []⟩

lemma eligible_wp_beer : eligible wp_beer = some true := by
  norm_num [eligible, wp_beer]
  exact ⟨by decide, by decide⟩

lemma classify_wp_beer : classify wp_beer = .beer := by decide

lemma renderGroups_wp_beer : renderGroups [wp_beer] = some single_beer := by
  simp only [renderGroups, categorize, categorizeAux, eligible_wp_beer, classify_wp_beer]
  simp [Groups.push, Groups.empty, sortGroups, sort_by, insertBy, single_beer]

/-- C5: every eligible product lands in exactly one group, the one picked by
`classify`; `classify` depends only on `category` and `sub_category` and
follows the priority rules: wine-family labels → Wine, else "Öl" → Beer,
else "Cider och blanddrycker" → Cider when the sub-category is "Cider" and
Other otherwise, else "Sprit" → Liquor, else (including a missing category,
read as "Other") → Other. -/
theorem c5_eligible_exactly_one_group :
    (∀ (products : List Product) (G : Groups) (p : Product),
      renderGroups products = some G → p ∈ products → eligible p = some true →
        p ∈ G.list (classify p) ∧ ∀ grp : Group, p ∈ G.list grp → grp = classify p) ∧
    (∀ p q : Product, p.category = q.category → p.sub_category = q.sub_category →
      classify p = classify q) ∧
    (∀ p : Product,
      (p.category.getD "Other" = "Röda viner" ∨ p.category.getD "Other" = "Vita viner" ∨
        p.category.getD "Other" = "Mousserande viner" ∨
        p.category.getD "Other" = "Roséviner" ∨
        p.category.getD "Other" = "Aperitif & dessert") → classify p = .wine) ∧
    (∀ p : Product, p.category.getD "Other" = "Öl" → classify p = .beer) ∧
    (∀ p : Product, p.category.getD "Other" = "Cider och blanddrycker" →
      classify p = if p.sub_category.getD "Other" = "Cider" then .cider else .other) ∧
    (∀ p : Product, p.category.getD "Other" = "Sprit" → classify p = .liquor) ∧
    (∀ p : Product,
      p.category.getD "Other" ∉ (["Röda viner", "Vita viner", "Mousserande viner",
        "Roséviner", "Aperitif & dessert", "Öl", "Cider och blanddrycker", "Sprit"] :
        List String) → classify p = .other) ∧
    (∀ p : Product, p.category = none → classify p = .other) := by
  refine ⟨?_, ?_, ?_, ?_, ?_, ?_, ?_, ?_⟩
  · intro products G p hG hp he
    refine ⟨(renderGroups_mem products G hG (classify p) p).mpr ⟨hp, he, rfl⟩, ?_⟩
    intro grp hmem
    exact ((renderGroups_mem products G hG grp p).mp hmem).2.2.symm
  · intro p q h1 h2
    simp only [classify, h1, h2]
  · intro p h
    rcases h with h | h | h | h | h <;> simp [classify, h]
  · intro p h
    simp [classify, h]
  · intro p h
    simp [classify, h]
  · intro p h
    simp [classify, h]
  · intro p h
    simp only [List.mem_cons, List.not_mem_nil, or_false, not_or] at h
    obtain ⟨h1, h2, h3, h4, h5, h6, h7, h8⟩ := h
    simp [classify, h1, h2, h3, h4, h5, h6, h7, h8]
  · intro p h
    simp [classify, h]

theorem c5_witness :
    renderGroups [wp_beer] = some single_beer ∧
    wp_beer ∈ [wp_beer] ∧
    eligible wp_beer = some true ∧
    (wp_beer ∈ single_beer.list (classify wp_beer) ∧
      ∀ grp : Group, wp_beer ∈ single_beer.list grp → grp = classify wp_beer) :=
  ⟨renderGroups_wp_beer, by simp, eligible_wp_beer,
    c5_eligible_exactly_one_group.1 [wp_beer] single_beer wp_beer
      renderGroups_wp_beer (by simp) eligible_wp_beer⟩

lemma eligible_eq_none_iff (p : Product) :
    eligible p = none ↔ 0 < p.alcohol_percentage ∧ p.assortment = none := by
  unfold eligible
  split
  · cases h : p.assortment <;> simp_all
  · simp_all

lemma categorizeAux_isSome :
    ∀ (ds : List Product) (g : Groups),
      (∀ p ∈ ds, 0 < p.alcohol_percentage → p.assortment ≠ none) →
      (categorizeAux g ds).isSome := by
  intro ds
  induction ds with
  | nil => intro g _; rfl
  | cons d ds ih =>
    intro g h
    simp only [categorizeAux]
    cases he : eligible d with
    | none =>
      rw [eligible_eq_none_iff] at he
      exact absurd he.2 (h d (List.mem_cons_self d ds) he.1)
    | some b =>
      cases b
      · exact ih g fun p hp => h p (List.mem_cons_of_mem d hp)
      · exact ih _ fun p hp => h p (List.mem_cons_of_mem d hp)

/-- C8 counterexample: a product whose only absent fields are the optional
ones (`category`, `sub_category`, `assortment` — every mandatory numeric
field is present by construction) still makes the categorizer fail: the
filter unwraps the missing `assortment` and panics (`none`). -/
theorem c8_counterexample :
    no_assortment_product.assortment = none ∧
    no_assortment_product.category = none ∧
    no_assortment_product.sub_category = none ∧
    categorize [no_assortment_product] = none :=
  ⟨rfl, rfl, rfl, by norm_num [categorize, categorizeAux, eligible, no_assortment_product]⟩

/-- C8 (amended): absent `category` / `sub_category` degrade to the Other
fallback and never cause a failure, and the categorizer succeeds whenever
every product with positive alcohol percentage has an `assortment`; but a
product with positive alcohol percentage and an absent `assortment` makes
the eligibility filter panic. -/
theorem c8_amended_optional_fields :
    (∀ products : List Product,
      (∀ p ∈ products, 0 < p.alcohol_percentage → p.assortment ≠ none) →
      (categorize products).isSome) ∧
    (∀ p : Product, 0 < p.alcohol_percentage → p.assortment = none →
      eligible p = none) ∧
    (∀ p : Product, p.category = none → classify p = .other) ∧
    (∀ p : Product, p.category = some "Cider och blanddrycker" →
      p.sub_category = none → classify p = .other) := by
  refine ⟨fun products h => categorizeAux_isSome products Groups.empty h, ?_, ?_, ?_⟩
  · intro p h1 h2
    rw [eligible_eq_none_iff]
    exact ⟨h1, h2⟩
  · intro p h
    simp [classify, h]
  · intro p h1 h2
    simp [classify, h1, h2]

theorem c8_witness :
    (∀ p ∈ ([wp_beer] : List Product), 0 < p.alcohol_percentage → p.assortment ≠ none) ∧
    (categorize [wp_beer]).isSome :=
  ⟨fun p hp => by
      simp only [List.mem_singleton] at hp
      subst hp
      simp [wp_beer],
   c8_amended_optional_fields.1 [wp_beer]
     (fun p hp => by
       simp only [List.mem_singleton] at hp
       subst hp
       simp [wp_beer])⟩

/-- Second eligible beer, score 100 (higher than `wp_beer`'s 50). -/
def wp_beer2 : Product :=
  { category := some "Öl"
    sub_category := none
    assortment := some "FS"
    alcohol_percentage := 5
    volume := 200
    price := 10
    recycle_fee := 0
    is_completely_out_of_stock := false }

/-- The two-beer grouping after sorting, used by witnesses. -/
def two_beers_sorted : Groups := ⟨[], [wp_beer2, wp_beer], [], [], []⟩

lemma apk_ne_nan_of_pos (p : Product) (ha : 0 < p.alcohol_percentage)
    (hv : 0 < p.volume) : apk p ≠ .nan := by
  unfold apk
  split
  · rw [if_pos (mul_pos ha hv)]
    simp
  · simp

lemma eligible_true_alcohol_pos (p : Product) (h : eligible p = some true) :
    0 < p.alcohol_percentage := by
  unfold eligible at h
  split at h
  · assumption
  · exact absurd h (by simp)

lemma flt_le_trans {a b c : FVal} (ha : a ≠ .nan) (hb : b ≠ .nan) (hc : c ≠ .nan)
    (h1 : flt a b = false) (h2 : flt b c = false) : flt a c = false := by
  cases a <;> cases b <;> cases c <;> simp_all [flt]
  exact le_trans (by assumption) (by assumption)

lemma mem_insertBy {c : α → α → Ordering} {x a : α} {l : List α} :
    x ∈ insertBy c a l ↔ x = a ∨ x ∈ l :=
  (insertBy_perm c a l).mem_iff.trans List.mem_cons

lemma pairwise_insertBy (a : Product) (l : List Product)
    (hnn : ∀ x ∈ a :: l, apk x ≠ .nan)
    (hl : l.Pairwise (fun x y => flt (apk x) (apk y) = false)) :
    (insertBy apk_comparator a l).Pairwise (fun x y => flt (apk x) (apk y) = false) := by
  induction l with
  | nil => simp [insertBy]
  | cons b bs ih =>
    rcases List.pairwise_cons.mp hl with ⟨hb, hbs⟩
    simp only [insertBy]
    split
    · rename_i hgt
      have hab : flt (apk a) (apk b) = true := apk_comparator_gt.mp hgt
      refine List.pairwise_cons.mpr ⟨?_, ?_⟩
      · intro x hx
        rcases mem_insertBy.mp hx with rfl | hxbs
        · exact flt_asymm hab
        · exact hb x hxbs
      · refine ih ?_ hbs
        intro x hx
        rcases List.mem_cons.mp hx with rfl | hxbs
        · exact hnn x (List.mem_cons_self x _)
        · exact hnn x (List.mem_cons_of_mem a (List.mem_cons_of_mem b hxbs))
    · rename_i hngt
      have hab : flt (apk a) (apk b) = false := by
        cases hfab : flt (apk a) (apk b)
        · rfl
        · exact absurd (apk_comparator_gt.mpr hfab) hngt
      refine List.pairwise_cons.mpr ⟨?_, List.pairwise_cons.mpr ⟨hb, hbs⟩⟩
      intro x hx
      rcases List.mem_cons.mp hx with rfl | hxbs
      · exact hab
      · exact flt_le_trans
          (hnn a (List.mem_cons_self a _))
          (hnn b (List.mem_cons_of_mem a (List.mem_cons_self b bs)))
          (hnn x (List.mem_cons_of_mem a (List.mem_cons_of_mem b hxbs)))
          hab (hb x hxbs)

lemma pairwise_sort_by (l : List Product) (hnn : ∀ x ∈ l, apk x ≠ .nan) :
    (sort_by apk_comparator l).Pairwise (fun x y => flt (apk x) (apk y) = false) := by
  induction l with
  | nil => simp [sort_by]
  | cons a as ih =>
    simp only [sort_by]
    apply pairwise_insertBy
    · intro x hx
      rcases List.mem_cons.mp hx with rfl | hxs
      · exact hnn x (List.mem_cons_self x as)
      · exact hnn x
          (List.mem_cons_of_mem a ((sort_by_perm apk_comparator as).mem_iff.mp hxs))
    · exact ih fun x hx => hnn x (List.mem_cons_of_mem a hx)

/-- C6: for catalogs respecting the data model (positive volume), each of the
five ranked sequences is a permutation of the group's categorized members
(equal-score products both remain), and whenever the product at position `j`
has a strictly smaller score than the product at position `i` — i.e. the
product at `i` scores strictly higher — position `i` comes first, so any
product scoring strictly higher than another appears before it. -/
theorem c6_groups_ranked_by_descending_score
    (products : List Product) (G : Groups)
    (hvol : ∀ p ∈ products, 0 < p.volume)
    (hG : renderGroups products = some G) (grp : Group) :
    (∃ g0, categorize products = some g0 ∧ (G.list grp).Perm (g0.list grp)) ∧
    (∀ i j : Fin (G.list grp).length,
      flt (apk ((G.list grp).get j)) (apk ((G.list grp).get i)) = true →
        (i : Nat) < (j : Nat)) := by
  unfold renderGroups at hG
  cases hc : categorize products with
  | none => rw [hc] at hG; exact absurd hG (by simp)
  | some g0 =>
    rw [hc, Option.map_some'] at hG
    obtain rfl : sortGroups g0 = G := by injection hG
    have hnn : ∀ x ∈ g0.list grp, apk x ≠ .nan := by
      intro x hx
      obtain ⟨hxp, helig, -⟩ := (categorize_mem products g0 hc grp x).mp hx
      exact apk_ne_nan_of_pos x (eligible_true_alcohol_pos x helig) (hvol x hxp)
    constructor
    · exact ⟨g0, rfl, by rw [sortGroups_list]; exact sort_by_perm apk_comparator (g0.list grp)⟩
    · have hp := pairwise_sort_by (g0.list grp) hnn
      rw [sortGroups_list]
      intro i j hflt
      rcases Nat.lt_trichotomy (i : Nat) (j : Nat) with h | h | h
      · exact h
      · exfalso
        have hij : i = j := Fin.ext h
        subst hij
        rw [flt_irrefl] at hflt
        exact Bool.false_ne_true hflt
      · exfalso
        have := (List.pairwise_iff_get.mp hp) j i h
        rw [this] at hflt
        exact Bool.false_ne_true hflt

lemma eligible_wp_beer2 : eligible wp_beer2 = some true := by
  norm_num [eligible, wp_beer2]
  exact ⟨by decide, by decide⟩

lemma classify_wp_beer2 : classify wp_beer2 = .beer := by decide

lemma apk_wp_beer : apk wp_beer = .fin 50 := by
  have h : wp_beer.price + wp_beer.recycle_fee ≠ 0 := by norm_num [wp_beer]
  rw [apk, if_neg h]
  norm_num [wp_beer]

lemma apk_wp_beer2 : apk wp_beer2 = .fin 100 := by
  have h : wp_beer2.price + wp_beer2.recycle_fee ≠ 0 := by norm_num [wp_beer2]
  rw [apk, if_neg h]
  norm_num [wp_beer2]

lemma comparator_wp_beers : apk_comparator wp_beer wp_beer2 = .gt := by
  rw [apk_comparator_gt, apk_wp_beer, apk_wp_beer2]
  simp [flt]
  norm_num

lemma renderGroups_two_beers :
    renderGroups [wp_beer, wp_beer2] = some two_beers_sorted := by
  simp only [renderGroups, categorize, categorizeAux, eligible_wp_beer,
    eligible_wp_beer2, classify_wp_beer, classify_wp_beer2]
  simp only [Groups.push, Groups.empty, Option.map_some']
  simp [sortGroups, sort_by, insertBy, comparator_wp_beers, two_beers_sorted]

theorem c6_witness :
    (∀ p ∈ ([wp_beer, wp_beer2] : List Product), 0 < p.volume) ∧
    ((∃ g0, categorize [wp_beer, wp_beer2] = some g0 ∧
        (two_beers_sorted.list .beer).Perm (g0.list .beer)) ∧
      (∀ i j : Fin (two_beers_sorted.list .beer).length,
        flt (apk ((two_beers_sorted.list .beer).get j))
            (apk ((two_beers_sorted.list .beer).get i)) = true →
          (i : Nat) < (j : Nat))) :=
  ⟨fun p hp => by
      simp only [List.mem_cons, List.not_mem_nil, or_false] at hp
      rcases hp with rfl | rfl
      · norm_num [wp_beer]
      · norm_num [wp_beer2],
   c6_groups_ranked_by_descending_score [wp_beer, wp_beer2] two_beers_sorted
     (fun p hp => by
       simp only [List.mem_cons, List.not_mem_nil, or_false] at hp
       rcases hp with rfl | rfl
       · norm_num [wp_beer]
       · norm_num [wp_beer2])
     renderGroups_two_beers .beer⟩

/-- Constant rendering engine used by witnesses. -/
def constRender : TeraContext → Except Unit String := fun _ => .ok "page"

lemma categorize_wp_beer : categorize [wp_beer] = some single_beer := by
  simp only [categorize, categorizeAux, eligible_wp_beer, classify_wp_beer]
  simp [Groups.push, Groups.empty, single_beer]

/-- C9: the page builder assembles the group-name → ranked-sequence mapping
with the fixed display names in the fixed order Beer ("Öl"), Wine ("Vin"),
Cider, Liquor ("Sprit"), Other ("Annat"), passes exactly that mapping to the
rendering engine, and the registered accessors are the per-product value
score (`apk_filter` computes `apk`) and fixed-precision numeric formatting
(`format_float` renders with the requested number of decimals). -/
theorem c9_page_builder_mapping :
    (∀ g : Groups, (drinksJson g).map Prod.fst = ["Öl", "Vin", "Cider", "Sprit", "Annat"]) ∧
    (∀ g : Groups,
      (drinksJson g).map Prod.snd = [g.beers, g.wines, g.ciders, g.liquors, g.others]) ∧
    (∀ (tr : TeraContext → Except Unit String) (products : List Product) (g : Groups),
      categorize products = some g →
      render tr (.ok products) = some (tr ⟨drinksJson (sortGroups g)⟩)) ∧
    (∀ d : Product, apk_filter d = apk d) ∧
    format_float (625 / 6) 3 = "104.167" ∧
    format_float 1 2 = "1.00" := by
  refine ⟨fun g => rfl, fun g => rfl, ?_, fun d => rfl, ?_, ?_⟩
  · intro tr products g hc
    simp only [render, hc]
    cases htr : tr ⟨drinksJson (sortGroups g)⟩ <;> simp [htr]
  · have h : round ((625 : Rat) / 6 * (10 : Rat) ^ (3 : Nat)) = 104167 := by
      rw [round_eq]
      norm_num
    simp only [format_float, h]
    decide
  · have h : round ((1 : Rat) * (10 : Rat) ^ (2 : Nat)) = 100 := by
      rw [round_eq]
      norm_num
    simp only [format_float, h]
    decide

theorem c9_witness :
    categorize [wp_beer] = some single_beer ∧
    render constRender (.ok [wp_beer]) =
      some (constRender ⟨drinksJson (sortGroups single_beer)⟩) :=
  ⟨categorize_wp_beer,
   c9_page_builder_mapping.2.2.1 constRender [wp_beer] single_beer categorize_wp_beer⟩

end Apk
